import Mathlib

/-!
Shallow embedding of `src/src/main.ts` (D2-game sketchpad): the command /
display-list model, undo/redo, the input-controller state machine, tool
previews and the renderer. Coordinates, thicknesses and sizes are modelled
as rationals (the program uses JS numbers; every value the claims touch is
exact). Canvas 2D calls are modelled as a trace of `CanvasOp` values, in
the order the program issues them. Reference identity of Commands is
modelled by a store (`Session.store`): the Display List and Redo Stack hold
store indices, so "same reference" means "same index".
-/

/-- `interface Point { x, y }` from main.ts. -/
structure Point where
  x : ℚ
  y : ℚ
deriving DecidableEq, Repr

/-- `ctx.lineCap = "round"` — the only cap the program sets. -/
inductive LineCap where
  | round
deriving DecidableEq, Repr

/-- `ctx.textAlign = "center"` — the only alignment the program sets. -/
inductive TextAlign where
  | center
deriving DecidableEq, Repr

/-- `ctx.textBaseline = "middle"` — the only baseline the program sets. -/
inductive TextBaseline where
  | middle
deriving DecidableEq, Repr

/-- One canvas-2D call as issued by main.ts. `arc x y r` stands for the
full-circle call `ctx.arc(x, y, r, 0, Math.PI * 2)` (the angle arguments
are the same constants at every call site). -/
inductive CanvasOp where
  | save
  | restore
  | beginPath
  | stroke
  | fill
  | setLineWidth (w : ℚ)
  | setLineCap (c : LineCap)
  | setStrokeStyle (s : String)
  | setFillStyle (s : String)
  | setGlobalAlpha (a : ℚ)
  | setFont (size : ℚ) (family : String)
  | setTextAlign (a : TextAlign)
  | setTextBaseline (b : TextBaseline)
  | moveTo (x y : ℚ)
  | lineTo (x y : ℚ)
  | fillText (s : String) (x y : ℚ)
  | arc (x y r : ℚ)
  | clearRect (x y w h : ℚ)
deriving DecidableEq, Repr

/-- The font-family string both sticker paint paths use. -/
def fontFamily : String :=
  "system-ui, Apple Color Emoji, Segoe UI Emoji, Noto Color Emoji"

/-- Default marker color (`color = "#00449f"` default parameter). -/
def defaultColor : String := "#00449f"

/-- A committed `Command`: the closed-over state of `createMarkerLine`
(its `points`, `thickness`, `color`) or of `createStickerCommand`
(its `emoji`, `pos`, `fontSize`). -/
inductive Cmd where
  | marker (points : List Point) (thickness : ℚ) (color : String)
  | sticker (emoji : String) (pos : Point) (fontSize : ℚ)
deriving DecidableEq, Repr

/-- `createMarkerLine(start, thickness, color)`: `points = [start]`. -/
def createMarkerLine (start : Point) (thickness : ℚ)
    (color : String := defaultColor) : Cmd :=
  .marker [start] thickness color

/-- `createStickerCommand(emoji, start, size)`: `pos = {...start}`,
`fontSize = Math.max(12, size)`. -/
def createStickerCommand (emoji : String) (start : Point)
    (size : ℚ := 24) : Cmd :=
  .sticker emoji start (max 12 size)

/-- `drag(x, y)`: marker pushes `{x, y}` onto `points`; sticker overwrites
`pos` with `{x, y}`. -/
def Cmd.drag (c : Cmd) (x y : ℚ) : Cmd :=
  match c with
  | .marker pts t col => .marker (pts ++ [⟨x, y⟩]) t col
  | .sticker e _ f => .sticker e ⟨x, y⟩ f

/-- `display(ctx)` of a Command, as the trace of canvas calls it issues.
Marker: early return on empty `points`, else save / beginPath / lineWidth /
lineCap / strokeStyle / moveTo first point / lineTo each later point /
stroke / restore. Sticker: save / font / textAlign / textBaseline /
fillText at `pos` / restore. -/
def Cmd.display : Cmd → List CanvasOp
  | .marker [] _ _ => []
  | .marker (p :: rest) t col =>
      [.save, .beginPath, .setLineWidth t, .setLineCap .round,
       .setStrokeStyle col, .moveTo p.x p.y]
        ++ rest.map (fun q => CanvasOp.lineTo q.x q.y)
        ++ [.stroke, .restore]
  | .sticker e pos f =>
      [.save, .setFont f fontFamily, .setTextAlign .center,
       .setTextBaseline .middle, .fillText e pos.x pos.y, .restore]

/-- A `ToolPreview`: closed-over state of `createMarkerPreview`
(`pos`, radius `r`, color) or `createStickerPreview`
(`emoji`, `pos`, `fontSize`). `pos = none` models the initial `null`. -/
inductive Preview where
  | markerPrev (pos : Option Point) (r : ℚ) (color : String)
  | stickerPrev (emoji : String) (pos : Option Point) (fontSize : ℚ)
deriving DecidableEq, Repr

/-- `createMarkerPreview(thickness, color)`: `pos = null`,
`r = Math.max(1, thickness / 2)`. -/
def createMarkerPreview (thickness : ℚ)
    (color : String := defaultColor) : Preview :=
  .markerPrev none (max 1 (thickness / 2)) color

/-- `createStickerPreview(emoji, size)`: `pos = null`,
`fontSize = Math.max(12, size)`. -/
def createStickerPreview (emoji : String) (size : ℚ := 24) : Preview :=
  .stickerPrev emoji none (max 12 size)

/-- `moveTo(x, y)` of a preview: record `pos = {x, y}`. -/
def Preview.moveTo (pv : Preview) (x y : ℚ) : Preview :=
  match pv with
  | .markerPrev _ r col => .markerPrev (some ⟨x, y⟩) r col
  | .stickerPrev e _ f => .stickerPrev e (some ⟨x, y⟩) f

/-- `draw(ctx)` of a preview: nothing until a position has been recorded;
marker preview draws a filled-and-stroked circle, sticker preview draws
the emoji at `globalAlpha = 0.65`. -/
def Preview.draw : Preview → List CanvasOp
  | .markerPrev none _ _ => []
  | .markerPrev (some p) r col =>
      [.save, .beginPath, .setLineWidth 1, .setStrokeStyle col,
       .setFillStyle "rgba(0,0,0,0.06)", .arc p.x p.y r, .fill, .stroke,
       .restore]
  | .stickerPrev _ none _ => []
  | .stickerPrev e (some p) f =>
      [.save, .setGlobalAlpha (65 / 100), .setFont f fontFamily,
       .setTextAlign .center, .setTextBaseline .middle,
       .fillText e p.x p.y, .restore]

/-- `type Tool = MarkerTool | StickerTool`. -/
inductive Tool where
  | marker (label : String) (thickness : ℚ)
  | sticker (label : String) (emoji : String) (size : ℚ)
deriving DecidableEq, Repr

def THIN : Tool := .marker "Thin" 2
def THICK : Tool := .marker "Thick" 6
def STAR : Tool := .sticker "⭐" "⭐" 28
def HEART : Tool := .sticker "❤️" "❤️" 28
def FIRE : Tool := .sticker "🔥" "🔥" 28

/-- `makePreviewForTool(tool)`. -/
def makePreviewForTool : Tool → Preview
  | .marker _ t => createMarkerPreview t
  | .sticker _ e sz => createStickerPreview e sz

/-- The command `mousedown` instantiates for the current tool. -/
def newCommandForTool : Tool → Point → Cmd
  | .marker _ t, p => createMarkerLine p t
  | .sticker _ e sz, p => createStickerCommand e p sz

/-- The module-level mutable state of main.ts. Commands live in `store`
(a heap indexed by allocation order); `displayList`, `redoStack` and
`currentCommand` hold store indices, so index equality is reference
equality. Arrays are Lean lists with `push`/`pop` acting on the tail,
exactly as JS `Array.push`/`Array.pop` do. -/
structure Session where
  store : List Cmd
  displayList : List Nat
  redoStack : List Nat
  currentCommand : Option Nat
  isDrawing : Bool
  currentTool : Tool
  preview : Option Preview
deriving DecidableEq, Repr

attribute [ext] Session

/-- Replace the element at index `i` by `f` of it; out-of-range is a
no-op (JS never hits that case: indices come from allocations). -/
def modifyAt (f : Cmd → Cmd) : List Cmd → Nat → List Cmd
  | [], _ => []
  | c :: cs, 0 => f c :: cs
  | c :: cs, n + 1 => c :: modifyAt f cs n

/-- `undo()`: early return when the Display List is empty, else pop its
last element and push it on the Redo Stack. -/
def undo (s : Session) : Session :=
  match s.displayList.getLast? with
  | none => s
  | some c =>
      { s with displayList := s.displayList.dropLast,
               redoStack := s.redoStack ++ [c] }

/-- `redo()`: early return when the Redo Stack is empty, else pop its top
and push it back on the Display List. -/
def redo (s : Session) : Session :=
  match s.redoStack.getLast? with
  | none => s
  | some c =>
      { s with redoStack := s.redoStack.dropLast,
               displayList := s.displayList ++ [c] }

/-- The `clearButton` click listener: `displayList.length = 0;
redoStack.length = 0`. -/
def clear (s : Session) : Session :=
  { s with displayList := [], redoStack := [] }

/-- The `mousedown` listener: set `isDrawing`, clear the Redo Stack,
instantiate a Command from the current tool at the event point, make it
current and push it onto the Display List. The fresh store index
`s.store.length` models the new object reference. -/
def mousedown (s : Session) (p : Point) : Session :=
  { s with isDrawing := true,
           redoStack := [],
           store := s.store ++ [newCommandForTool s.currentTool p],
           currentCommand := some s.store.length,
           displayList := s.displayList ++ [s.store.length] }

/-- The `mousemove` listener: while drawing, `drag` the current command
(if one exists); otherwise ensure a preview exists and move it. -/
def mousemove (s : Session) (x y : ℚ) : Session :=
  if s.isDrawing then
    match s.currentCommand with
    | some i => { s with store := modifyAt (fun c => c.drag x y) s.store i }
    | none => s
  else
    let pv := s.preview.getD (makePreviewForTool s.currentTool)
    { s with preview := some (pv.moveTo x y) }

/-- `endStroke()`: early return unless drawing; else leave the Drawing
state and drop the current-command reference. -/
def endStroke (s : Session) : Session :=
  if s.isDrawing then
    { s with isDrawing := false, currentCommand := none }
  else s

/-- The `mouseup` listener is exactly `endStroke`. -/
def mouseup (s : Session) : Session := endStroke s

/-- The `mouseleave` listener: `preview = null` and a tool-moved
notification — nothing else. -/
def mouseleave (s : Session) : Session :=
  { s with preview := none }

/-- `selectTool(tool)`: set the current tool and rebuild the preview for
it (then force a repaint via the tool-moved notification). -/
def selectTool (s : Session) (tool : Tool) : Session :=
  { s with currentTool := tool,
           preview := some (makePreviewForTool tool) }

/-- The canvas calls `display` of the command stored at index `i` issues
(nothing for a dangling index, which never occurs). -/
def lookupCmdOps (s : Session) (i : Nat) : List CanvasOp :=
  match s.store[i]? with
  | some c => c.display
  | none => []

/-- The trace of the committed commands, in Display-List order. -/
def displayOps (s : Session) : List CanvasOp :=
  (s.displayList.map (lookupCmdOps s)).flatten

/-- `render()`: clear the 256×256 canvas, paint every Display-List
command in order, then the preview — only when not drawing and one
exists. -/
def render (s : Session) : List CanvasOp :=
  CanvasOp.clearRect 0 0 256 256 ::
    (displayOps s ++
      if s.isDrawing then []
      else match s.preview with
           | some pv => pv.draw
           | none => [])

/-! ## Helper lemmas and concrete sessions -/

theorem dropLast_append_of_getLast? {α : Type} {l : List α} {a : α}
    (h : l.getLast? = some a) : l.dropLast ++ [a] = l := by
  cases l with
  | nil => simp at h
  | cons x xs =>
      have hne : x :: xs ≠ [] := by simp
      rw [List.getLast?_eq_getLast _ hne, Option.some.injEq] at h
      rw [← h]
      exact List.dropLast_append_getLast hne

theorem ne_nil_of_getLast? {α : Type} {l : List α} {a : α}
    (h : l.getLast? = some a) : l ≠ [] := by
  intro hl
  subst hl
  simp at h

theorem getElem?_modifyAt_self (f : Cmd → Cmd) :
    ∀ (l : List Cmd) (i : Nat), (modifyAt f l i)[i]? = (l[i]?).map f := by
  intro l
  induction l with
  | nil => intro i; simp [modifyAt]
  | cons c cs ih =>
      intro i
      cases i with
      | zero => simp [modifyAt]
      | succ n => simpa [modifyAt] using ih n

/-- A sample committed command: a thin marker stroke started at (10,10). -/
def exCmd : Cmd := createMarkerLine ⟨10, 10⟩ 2

/-- A sample session with one committed command and empty redo stack. -/
def ex1 : Session :=
  { store := [exCmd], displayList := [0], redoStack := [],
    currentCommand := none, isDrawing := false, currentTool := THIN,
    preview := none }

/-- A sample mid-drag session: command 0 is current, pointer held down. -/
def exDrawing : Session :=
  { store := [exCmd], displayList := [0], redoStack := [],
    currentCommand := some 0, isDrawing := true, currentTool := THIN,
    preview := some (createMarkerPreview 2) }

/-- A thin-marker preview with a recorded position. -/
def pv0 : Preview := Preview.markerPrev (some ⟨50, 50⟩) 1 defaultColor

/-- A sample idle session whose preview has a recorded position. -/
def exIdle : Session :=
  { store := [exCmd], displayList := [0], redoStack := [],
    currentCommand := none, isDrawing := false, currentTool := THIN,
    preview := some pv0 }

/-- An idle session with an empty canvas and a positioned preview. -/
def exIdleEmpty : Session :=
  { store := [], displayList := [], redoStack := [],
    currentCommand := none, isDrawing := false, currentTool := THIN,
    preview := some pv0 }

/-! ## Claims -/

/-- C1: `undo()` is a no-op on an empty Display List; otherwise it removes
exactly the last Display-List entry (length drops by one, the rest is
unchanged) and pushes that same Command (same store index, store
untouched) onto the top of the Redo Stack. -/
theorem undo_pops_last_to_redo (s : Session) :
    (s.displayList = [] → undo s = s) ∧
    ∀ c, s.displayList.getLast? = some c →
      (undo s).displayList = s.displayList.dropLast ∧
      (undo s).displayList.length + 1 = s.displayList.length ∧
      (undo s).redoStack = s.redoStack ++ [c] ∧
      (undo s).store = s.store := by
  constructor
  · intro h
    simp [undo, h]
  · intro c hc
    have hne := ne_nil_of_getLast? hc
    refine ⟨by simp [undo, hc], ?_, by simp [undo, hc], by simp [undo, hc]⟩
    have hlen : s.displayList.length ≠ 0 := fun h0 =>
      hne (List.eq_nil_of_length_eq_zero h0)
    simp only [undo, hc, List.length_dropLast]
    omega

/-- C1 witness: on a one-element Display List, undo empties it and pushes
index 0 onto the Redo Stack. -/
theorem undo_pops_last_to_redo_witness :
    undo exIdleEmpty = exIdleEmpty ∧
    ex1.displayList.getLast? = some 0 ∧
    (undo ex1).displayList = ex1.displayList.dropLast ∧
    (undo ex1).displayList.length + 1 = ex1.displayList.length ∧
    (undo ex1).redoStack = ex1.redoStack ++ [0] ∧
    (undo ex1).store = ex1.store :=
  ⟨(undo_pops_last_to_redo exIdleEmpty).1 rfl, rfl,
   (undo_pops_last_to_redo ex1).2 0 rfl⟩

/-- C2: with a non-empty Display List, `redo` after `undo` restores the
whole session exactly — the same store index returns to the tail, so the
very same Command reference is back, a round-trip identity. -/
theorem redo_undo_roundtrip (s : Session) (h : s.displayList ≠ []) :
    redo (undo s) = s := by
  cases hc : s.displayList.getLast? with
  | none =>
      exact absurd (by simpa using hc) h
  | some c =>
      have hback := dropLast_append_of_getLast? hc
      simp [undo, hc, redo, List.getLast?_concat, List.dropLast_concat, hback]

/-- C2 witness: round trip on the one-command session. -/
theorem redo_undo_roundtrip_witness : redo (undo ex1) = ex1 :=
  redo_undo_roundtrip ex1 (by simp [ex1])

/-- C3: a pointer-down empties the Redo Stack, allocates one new Command
from the current Tool at the pointer position in a previously unoccupied
store slot, appends exactly that one entry to the Display List (length
grows by one), sets it current, and enters the Drawing state. -/
theorem mousedown_commits_once (s : Session) (p : Point) :
    (mousedown s p).redoStack = [] ∧
    (mousedown s p).displayList = s.displayList ++ [s.store.length] ∧
    (mousedown s p).displayList.length = s.displayList.length + 1 ∧
    s.store[s.store.length]? = none ∧
    (mousedown s p).store[s.store.length]? =
      some (newCommandForTool s.currentTool p) ∧
    (mousedown s p).currentCommand = some s.store.length ∧
    (mousedown s p).isDrawing = true := by
  refine ⟨rfl, rfl, by simp [mousedown], by simp, ?_, rfl, rfl⟩
  simp [mousedown]

/-- C4: `clear()` empties both the Display List and the Redo Stack and
leaves every other piece of session state — tool, preview, drawing flag,
current-command reference, and the stored Commands — unchanged. -/
theorem clear_resets_lists_only (s : Session) :
    (clear s).displayList = [] ∧
    (clear s).redoStack = [] ∧
    (clear s).currentTool = s.currentTool ∧
    (clear s).preview = s.preview ∧
    (clear s).isDrawing = s.isDrawing ∧
    (clear s).currentCommand = s.currentCommand ∧
    (clear s).store = s.store :=
  ⟨rfl, rfl, rfl, rfl, rfl, rfl, rfl⟩

theorem drag_fold_marker (ds : List Point) :
    ∀ (pts : List Point) (t : ℚ) (col : String),
      ds.foldl (fun c q => Cmd.drag c q.x q.y) (Cmd.marker pts t col)
        = Cmd.marker (pts ++ ds) t col := by
  induction ds with
  | nil => intro pts t col; simp
  | cons d ds ih =>
      intro pts t col
      have hd : Cmd.drag (Cmd.marker pts t col) d.x d.y
          = Cmd.marker (pts ++ [d]) t col := rfl
      rw [List.foldl_cons, hd, ih]
      simp

theorem drag_fold_sticker (ds : List Point) :
    ∀ (pos : Point) (e : String) (f : ℚ),
      ds.foldl (fun c q => Cmd.drag c q.x q.y) (Cmd.sticker e pos f)
        = Cmd.sticker e (ds.getLastD pos) f := by
  induction ds with
  | nil => intro pos e f; simp [List.getLastD]
  | cons d ds ih =>
      intro pos e f
      have hd : Cmd.drag (Cmd.sticker e pos f) d.x d.y
          = Cmd.sticker e d f := rfl
      rw [List.foldl_cons, hd, ih d e f]
      simp [List.getLastD_eq_getLast?, List.getLast?_cons]

/-- C5: a marker line started at `p` with thickness `t`, then dragged
through `d1..dn`, holds the point sequence `p :: ds` (drags append in
order), and its paint is the polyline trace: width `t`, round cap,
move-to `p` then line-to each drag point, in order. An empty point
sequence paints nothing. The spec's concrete instance — start (10,10),
thickness 2, drags (20,10) and (20,20) — gives points
[(10,10),(20,10),(20,20)]. -/
theorem marker_polyline (p : Point) (t : ℚ) (ds : List Point) :
    ds.foldl (fun c q => Cmd.drag c q.x q.y) (createMarkerLine p t)
      = Cmd.marker (p :: ds) t defaultColor ∧
    (Cmd.marker (p :: ds) t defaultColor).display
      = [.save, .beginPath, .setLineWidth t, .setLineCap .round,
         .setStrokeStyle defaultColor, .moveTo p.x p.y]
          ++ ds.map (fun q => CanvasOp.lineTo q.x q.y)
          ++ [.stroke, .restore] ∧
    (Cmd.marker [] t defaultColor).display = [] ∧
    ([⟨20, 10⟩, ⟨20, 20⟩] : List Point).foldl
        (fun c q => Cmd.drag c q.x q.y) (createMarkerLine ⟨10, 10⟩ 2)
      = Cmd.marker [⟨10, 10⟩, ⟨20, 10⟩, ⟨20, 20⟩] 2 defaultColor ∧
    (Cmd.marker [⟨10, 10⟩, ⟨20, 10⟩, ⟨20, 20⟩] 2 defaultColor).display
      = [.save, .beginPath, .setLineWidth 2, .setLineCap .round,
         .setStrokeStyle defaultColor, .moveTo 10 10, .lineTo 20 10,
         .lineTo 20 20, .stroke, .restore] := by
  refine ⟨?_, by simp [Cmd.display], rfl, ?_, by simp [Cmd.display]⟩
  · simpa [createMarkerLine] using drag_fold_marker ds [p] t defaultColor
  · simpa [createMarkerLine] using
      drag_fold_marker [⟨20, 10⟩, ⟨20, 20⟩] [⟨10, 10⟩] 2 defaultColor

/-- C6: a sticker's drag overwrites its single position, so after any drag
sequence the position is the last drag point (the start if none); its
glyph and font size are the construction-time values; its paint is one
`fillText` of the glyph at the current position — and for any other point
no `fillText` at that point occurs in the trace. -/
theorem fillText_not_mem (e : String) (f : ℚ) :
    ∀ (pos q : Point), q ≠ pos →
      CanvasOp.fillText e q.x q.y ∉ (Cmd.sticker e pos f).display := by
  rintro ⟨px, py⟩ ⟨qx, qy⟩ hq hmem
  simp [Cmd.display] at hmem
  exact hq (by rw [hmem.1, hmem.2])

theorem sticker_repositions (e : String) (p0 : Point) (sz : ℚ)
    (ds : List Point) :
    ds.foldl (fun c q => Cmd.drag c q.x q.y) (createStickerCommand e p0 sz)
      = Cmd.sticker e (ds.getLastD p0) (max 12 sz) ∧
    (Cmd.sticker e (ds.getLastD p0) (max 12 sz)).display
      = [.save, .setFont (max 12 sz) fontFamily, .setTextAlign .center,
         .setTextBaseline .middle,
         .fillText e (ds.getLastD p0).x (ds.getLastD p0).y, .restore] ∧
    ∀ q : Point, q ≠ ds.getLastD p0 →
      CanvasOp.fillText e q.x q.y
        ∉ (Cmd.sticker e (ds.getLastD p0) (max 12 sz)).display := by
  refine ⟨?_, rfl, ?_⟩
  · simpa [createStickerCommand] using drag_fold_sticker ds p0 e (max 12 sz)
  · intro q hq
    exact fillText_not_mem e (max 12 sz) (ds.getLastD p0) q hq

/-- C6 witness: the spec's instance — glyph "★" at (5,5), dragged to
(8,9) — ends at exactly (8,9) and its paint has no `fillText` at (5,5). -/
theorem sticker_repositions_witness :
    ([⟨8, 9⟩] : List Point).foldl (fun c q => Cmd.drag c q.x q.y)
        (createStickerCommand "★" ⟨5, 5⟩ 24)
      = Cmd.sticker "★" ⟨8, 9⟩ 24 ∧
    CanvasOp.fillText "★" 5 5 ∉ (Cmd.sticker "★" ⟨8, 9⟩ 24).display := by
  have h := sticker_repositions "★" ⟨5, 5⟩ 24 [⟨8, 9⟩]
  have hmax : (max 12 24 : ℚ) = 24 := by norm_num
  have hlast : (([⟨8, 9⟩] : List Point).getLastD ⟨5, 5⟩) = ⟨8, 9⟩ := rfl
  constructor
  · rw [hlast, hmax] at h
    exact h.1
  · have h3 := h.2.2 ⟨5, 5⟩ (by rw [hlast]; decide)
    rw [hlast, hmax] at h3
    simpa using h3

/-- C7 counterexample: from the Drawing state, the `mouseleave` listener
does NOT transition to Idle and does NOT drop the current-Command
reference — it only discards the preview. The claim that a
pointer-leaving-surface event behaves like pointer-up is false of the
code. -/
theorem mouseleave_keeps_drawing :
    (mouseleave exDrawing).isDrawing = true ∧
    (mouseleave exDrawing).currentCommand = some 0 ∧
    (mouseleave exDrawing).preview = none :=
  ⟨rfl, rfl, rfl⟩

/-- C7 amended: from the Drawing state, pointer-up transitions to Idle and
drops the current-Command reference while the Command stays committed in
the Display List (list and store untouched); pointer-leave performs no
such transition — it leaves the drawing flag and current-Command
reference unchanged and only discards the Preview. -/
theorem mouseup_ends_stroke (s : Session) (h : s.isDrawing = true) :
    (mouseup s).isDrawing = false ∧
    (mouseup s).currentCommand = none ∧
    (mouseup s).displayList = s.displayList ∧
    (mouseup s).store = s.store ∧
    (mouseleave s).isDrawing = s.isDrawing ∧
    (mouseleave s).currentCommand = s.currentCommand ∧
    (mouseleave s).preview = none ∧
    (mouseleave s).displayList = s.displayList := by
  refine ⟨?_, ?_, ?_, ?_, rfl, rfl, rfl, rfl⟩ <;>
    simp [mouseup, endStroke, h]

/-- C7 witness: instantiated on the sample mid-drag session. -/
theorem mouseup_ends_stroke_witness :
    (mouseup exDrawing).isDrawing = false ∧
    (mouseup exDrawing).currentCommand = none ∧
    (mouseup exDrawing).displayList = exDrawing.displayList ∧
    (mouseup exDrawing).store = exDrawing.store ∧
    (mouseleave exDrawing).isDrawing = exDrawing.isDrawing ∧
    (mouseleave exDrawing).currentCommand = exDrawing.currentCommand ∧
    (mouseleave exDrawing).preview = none ∧
    (mouseleave exDrawing).displayList = exDrawing.displayList :=
  mouseup_ends_stroke exDrawing rfl

/-- C8: `render` paints the preview only when not drawing and a preview
exists: while Drawing the trace is exactly the canvas clear followed by
the Display-List commands' traces (no preview ops at all, even if a
preview exists); while Idle with a preview, the preview's ops come last,
after every committed command; while Idle without a preview, nothing
follows the committed commands. -/
theorem render_preview_only_idle (s : Session) :
    (s.isDrawing = true →
      render s = CanvasOp.clearRect 0 0 256 256 :: displayOps s) ∧
    (s.isDrawing = false → ∀ pv, s.preview = some pv →
      render s
        = CanvasOp.clearRect 0 0 256 256 :: (displayOps s ++ pv.draw)) ∧
    (s.isDrawing = false → s.preview = none →
      render s = CanvasOp.clearRect 0 0 256 256 :: displayOps s) := by
  refine ⟨?_, ?_, ?_⟩
  · intro h
    simp [render, h]
  · intro h pv hpv
    simp [render, h, hpv]
  · intro h hpv
    simp [render, h, hpv]

/-- C8 witness: while drawing, the trace has no preview ops even though a
preview exists; when idle with the same canvas, the preview ops follow
the committed command's ops. -/
theorem render_preview_only_idle_witness :
    render exDrawing = CanvasOp.clearRect 0 0 256 256 :: displayOps exDrawing ∧
    render exIdle
      = CanvasOp.clearRect 0 0 256 256 :: (displayOps exIdle ++ pv0.draw) ∧
    render ex1 = CanvasOp.clearRect 0 0 256 256 :: displayOps ex1 :=
  ⟨(render_preview_only_idle exDrawing).1 rfl,
   (render_preview_only_idle exIdle).2.1 rfl pv0 rfl,
   (render_preview_only_idle ex1).2.2 rfl rfl⟩

/-- C9 counterexample: selecting a new tool rebuilds the Preview with no
recorded position (`pos = null`), so the very next paint shows nothing of
the new tool: starting from an idle session whose preview was visible at
(50,50), after `selectTool THICK` the render is just the canvas clear —
it does not reflect the new tool's shape/size without an intervening
pointer-move. -/
theorem selectTool_next_paint_empty :
    (selectTool exIdleEmpty THICK).preview = some (makePreviewForTool THICK) ∧
    (makePreviewForTool THICK).draw = [] ∧
    render (selectTool exIdleEmpty THICK) = [CanvasOp.clearRect 0 0 256 256] ∧
    render exIdleEmpty ≠ [CanvasOp.clearRect 0 0 256 256] := by
  refine ⟨rfl, rfl, rfl, ?_⟩
  intro h
  simp [render, exIdleEmpty, displayOps, pv0, Preview.draw] at h

/-- C9 amended: selecting a new Tool immediately replaces the Preview with
one built from that tool (leaving the drawing flag, Display List, Redo
Stack and store untouched) and triggers a repaint; the rebuilt Preview
has no recorded position so it paints nothing until the next pointer-move
records one, and from then on its paint reflects the new tool's
shape/size (circle of radius max(1, thickness/2) for a marker, the
glyph at font size max(12, size) for a sticker). -/
theorem selectTool_rebuilds_preview (s : Session) (tool : Tool) :
    (selectTool s tool).currentTool = tool ∧
    (selectTool s tool).preview = some (makePreviewForTool tool) ∧
    (selectTool s tool).isDrawing = s.isDrawing ∧
    (selectTool s tool).displayList = s.displayList ∧
    (selectTool s tool).redoStack = s.redoStack ∧
    (selectTool s tool).store = s.store ∧
    (makePreviewForTool tool).draw = [] ∧
    ∀ x y : ℚ, ((makePreviewForTool tool).moveTo x y).draw
      = match tool with
        | .marker _ t =>
            [.save, .beginPath, .setLineWidth 1, .setStrokeStyle defaultColor,
             .setFillStyle "rgba(0,0,0,0.06)", .arc x y (max 1 (t / 2)),
             .fill, .stroke, .restore]
        | .sticker _ e sz =>
            [.save, .setGlobalAlpha (65 / 100),
             .setFont (max 12 sz) fontFamily, .setTextAlign .center,
             .setTextBaseline .middle, .fillText e x y, .restore] := by
  refine ⟨rfl, rfl, rfl, rfl, rfl, rfl, ?_, ?_⟩
  · cases tool <;> rfl
  · intro x y
    cases tool <;> rfl

/-- One `mousemove` while drawing: the drawing flag, current index,
Display List and Redo Stack are untouched; the stored command at the
current index is dragged. -/
theorem mousemove_drawing_step (st : Session) (i : Nat) (c : Cmd)
    (hD : st.isDrawing = true) (hC : st.currentCommand = some i)
    (hS : st.store[i]? = some c) (x y : ℚ) :
    (mousemove st x y).isDrawing = true ∧
    (mousemove st x y).currentCommand = some i ∧
    (mousemove st x y).displayList = st.displayList ∧
    (mousemove st x y).redoStack = st.redoStack ∧
    (mousemove st x y).store[i]? = some (c.drag x y) := by
  refine ⟨?_, ?_, ?_, ?_, ?_⟩ <;>
    simp [mousemove, hD, hC, getElem?_modifyAt_self, hS]

theorem mousemove_fold (moves : List Point) :
    ∀ (st : Session) (i : Nat) (c : Cmd),
      st.isDrawing = true → st.currentCommand = some i →
      st.store[i]? = some c →
      ((moves.foldl (fun t q => mousemove t q.x q.y) st).isDrawing = true ∧
       (moves.foldl (fun t q => mousemove t q.x q.y) st).currentCommand
         = some i ∧
       (moves.foldl (fun t q => mousemove t q.x q.y) st).displayList
         = st.displayList ∧
       (moves.foldl (fun t q => mousemove t q.x q.y) st).store[i]?
         = some (moves.foldl (fun c q => c.drag q.x q.y) c)) := by
  induction moves with
  | nil =>
      intro st i c hD hC hS
      exact ⟨hD, hC, rfl, hS⟩
  | cons q moves ih =>
      intro st i c hD hC hS
      have hstep := mousemove_drawing_step st i c hD hC hS q.x q.y
      have hrec := ih (mousemove st q.x q.y) i (c.drag q.x q.y)
        hstep.1 hstep.2.1 hstep.2.2.2.2
      exact ⟨hrec.1, hrec.2.1, by rw [List.foldl_cons, hrec.2.2.1, hstep.2.2.1],
        hrec.2.2.2⟩

/-- C10: after a pointer-down at `p` followed by any sequence of
pointer-moves, the session is still Drawing, the current Command is the
store index that pointer-down allocated, that index is exactly the last
element of the Display List (reference equality: same index, same
object), and the command read back through that index is the tool's
command at `p` with every drag applied — each drag mutation is visible
through the Display List. -/
theorem current_is_display_tail (s : Session) (p : Point)
    (moves : List Point) :
    ((moves.foldl (fun t q => mousemove t q.x q.y)
        (mousedown s p)).isDrawing = true) ∧
    ((moves.foldl (fun t q => mousemove t q.x q.y)
        (mousedown s p)).currentCommand = some s.store.length) ∧
    ((moves.foldl (fun t q => mousemove t q.x q.y)
        (mousedown s p)).displayList.getLast? = some s.store.length) ∧
    ((moves.foldl (fun t q => mousemove t q.x q.y)
        (mousedown s p)).store[s.store.length]?
      = some (moves.foldl (fun c q => c.drag q.x q.y)
          (newCommandForTool s.currentTool p))) := by
  have hbase : (mousedown s p).store[s.store.length]?
      = some (newCommandForTool s.currentTool p) := by
    simp [mousedown]
  have h := mousemove_fold moves (mousedown s p) s.store.length
    (newCommandForTool s.currentTool p) rfl rfl hbase
  refine ⟨h.1, h.2.1, ?_, h.2.2.2⟩
  rw [h.2.2.1]
  simp [mousedown]
